import Mathlib

/-!
Shallow embedding of `service_youtube.go` from the MumbleDJ repository.

The file models the YouTube service of MumbleDJ: duration parsing during
song construction (`NewYouTubeSong`, lines 56-59), the maximum-duration
acceptance policy (lines 61-76), skip-vote accounting for songs and
playlists (`AddSkip`, `RemoveSkip`, `SkipReached`, `DeleteSkippers`),
playlist expansion (`NewYouTubePlaylist`, lines 245-306) and the
`Playlist()` accessor (lines 220-222).

Conventions of the embedding:
* Go strings are `List Char` (byte-accurate for the ASCII data involved);
* network requests (`PerformGetRequest`) are an input oracle
  `GoStr → Except GoStr ApiResponse`, and `jsonq` path queries are
  best-effort field functions on `ApiResponse` (matching the discarded
  errors in the source);
* the global `dj` state used by the source (configuration, queue,
  `playlistSkips` map) is passed explicitly;
* a Go runtime panic (slice bounds, nil dereference) is an explicit
  `panicked` outcome;
* `float32` values are modelled by `GoFloat32` with exact IEEE special
  values (NaN, infinities, division by zero); the one branch that divides
  by a nonzero number keeps the exact rational quotient, and no theorem
  below depends on that branch.
-/

/-- Go strings, modelled as lists of characters (byte-accurate for the
ASCII strings these functions manipulate). -/
abbrev GoStr := List Char

/-- The decimal digit character of a single digit value; values of ten or
more render as the digit nine, and callers only pass values below ten. -/
def digitChar (d : Nat) : Char :=
  if d = 0 then '0' else if d = 1 then '1' else if d = 2 then '2'
  else if d = 3 then '3' else if d = 4 then '4' else if d = 5 then '5'
  else if d = 6 then '6' else if d = 7 then '7' else if d = 8 then '8' else '9'

/-- Bounded-fuel helper for decimal rendering; the fuel argument makes
the recursion structural (so it evaluates by reduction), and any fuel
above the value itself suffices. -/
def natDigitsAux : Nat → Nat → List Char
  | 0, _ => []
  | fuel + 1, n =>
    if n < 10 then [digitChar n] else natDigitsAux fuel (n / 10) ++ [digitChar (n % 10)]

/-- Decimal rendering of a natural number, as produced by Go
`strconv.Itoa` and the `%d` verb of `fmt.Sprintf` on non-negative
values. -/
def natDigits (n : Nat) : List Char := natDigitsAux (n + 1) n

/-- Decimal rendering of an integer, as produced by the `%d` verb of
`fmt.Sprintf`. -/
def intRender (i : Int) : GoStr :=
  if i < 0 then '-' :: natDigits i.natAbs else natDigits i.toNat

/-- `strings.Index s sub` for a one-character `sub`: the index of the
first occurrence of the character, or `-1` when it does not occur. -/
def goIndexOf : List Char → Char → Int
  | [], _ => -1
  | x :: xs, c =>
    if x = c then 0 else (if goIndexOf xs c < 0 then -1 else goIndexOf xs c + 1)

/-- A Go string slice `s[lo:hi]`: `none` models the runtime panic
(slice bounds out of range) raised unless `0 ≤ lo ≤ hi ≤ len s`. -/
def goSlice (cs : List Char) (lo hi : Int) : Option (List Char) :=
  if 0 ≤ lo ∧ lo ≤ hi ∧ hi ≤ (cs.length : Int) then
    some ((cs.drop lo.toNat).take (hi - lo).toNat)
  else none

/-- Clamping of an integer to the 32-bit signed range, as
`strconv.ParseInt` with `bitSize` 32 does on range overflow (the clamped
value is returned together with an error that the source discards). -/
def clamp32 (v : Int) : Int :=
  if v > 2147483647 then 2147483647
  else if v < -2147483648 then -2147483648 else v

/-- The accumulated value of a list of decimal digit characters. -/
def digitsToNat (cs : List Char) : Nat :=
  cs.foldl (fun a c => a * 10 + (c.toNat - 48)) 0

/-- `strconv.ParseInt s 10 32`: an optional sign followed by at least one
decimal digit; `none` models the malformed-number error (the call then
returns 0, which the source keeps because it discards the error). -/
def goParseInt (cs : List Char) : Option Int :=
  match cs with
  | [] => none
  | c :: rest =>
    if c = '+' then
      if rest ≠ [] ∧ rest.all Char.isDigit then some (clamp32 (digitsToNat rest)) else none
    else if c = '-' then
      if rest ≠ [] ∧ rest.all Char.isDigit then some (clamp32 (-(digitsToNat rest : Int))) else none
    else
      if (c :: rest).all Char.isDigit then some (clamp32 (digitsToNat (c :: rest))) else none

/-- Outcome of the duration-parsing lines 56-57 of the source: either a
runtime panic from a bad slice, or the two parsed integers with parse
errors discarded (a failed `ParseInt` contributes 0). -/
inductive ParseOutcome where
  | panicked
  | parsed (minutes seconds : Int)
deriving DecidableEq

/-- Lines 56-57 of the source:
`minutes, _ := strconv.ParseInt(duration[2:strings.Index(duration, "M")], 10, 32)`
`seconds, _ := strconv.ParseInt(duration[strings.Index(duration, "M")+1:len(duration)-1], 10, 32)`
The minutes slice is evaluated first, as in the source. -/
def parseDurationChars (cs : List Char) : ParseOutcome :=
  match goSlice cs 2 (goIndexOf cs 'M') with
  | none => .panicked
  | some minStr =>
    match goSlice cs (goIndexOf cs 'M' + 1) ((cs.length : Int) - 1) with
    | none => .panicked
    | some secStr => .parsed ((goParseInt minStr).getD 0) ((goParseInt secStr).getD 0)

/-- Line 58: `totalSeconds := int((minutes * 60) + seconds)`. -/
def goTotalSeconds (minutes seconds : Int) : Int := minutes * 60 + seconds

/-- Line 59: `durationString := fmt.Sprintf("%d:%d", minutes, seconds)`. -/
def durationDisplay (minutes seconds : Int) : GoStr :=
  intRender minutes ++ ':' :: intRender seconds

/-- The well-formed encoded duration of the specification: the provider
prefix `PT`, the minutes terminated by `M`, the seconds terminated by the
trailing `S`. This definition follows the words of the specification and
is the encoder side of the codec round-trip claim. -/
def encodeDuration (m s : Nat) : List Char :=
  'P' :: 'T' :: (natDigits m ++ 'M' :: (natDigits s ++ ['S']))

/-- Model of Go `float32` values: NaN, the two infinities, and finite
values kept as exact rationals. The casts performed by the source
(`float32` of a slice length or of a channel-user count) are exact for
every magnitude below 2^24, which covers the values involved. -/
inductive GoFloat32 where
  | nan
  | posInf
  | negInf
  | finite (q : ℚ)
deriving DecidableEq

/-- IEEE 754 `float32` division as used on line 183 and line 340 of the
source. The special values follow IEEE exactly: `0/0` is NaN, `x/0` for
positive `x` is positive infinity. The finite/finite branch with a
nonzero denominator keeps the exact rational quotient (real `float32`
rounds it; no theorem in this file depends on that branch). -/
def f32div : GoFloat32 → GoFloat32 → GoFloat32
  | .nan, _ => .nan
  | _, .nan => .nan
  | .posInf, .posInf => .nan
  | .posInf, .negInf => .nan
  | .negInf, .posInf => .nan
  | .negInf, .negInf => .nan
  | .posInf, .finite b => if b < 0 then .negInf else .posInf
  | .negInf, .finite b => if b < 0 then .posInf else .negInf
  | .finite _, .posInf => .finite 0
  | .finite _, .negInf => .finite 0
  | .finite a, .finite b =>
    if b = 0 then (if a = 0 then .nan else if 0 < a then .posInf else .negInf)
    else .finite (a / b)

/-- IEEE 754 `>=` on `float32`: false whenever either operand is NaN. -/
def f32ge : GoFloat32 → GoFloat32 → Bool
  | .nan, _ => false
  | _, .nan => false
  | .posInf, _ => true
  | _, .posInf => false
  | .negInf, .negInf => true
  | .negInf, .finite _ => false
  | .finite _, .negInf => true
  | .finite a, .finite b => decide (b ≤ a)

/-- The cast `float32(n)` for an integer `n` (exact for the magnitudes
the source produces). -/
def f32ofInt (n : Int) : GoFloat32 := .finite (n : ℚ)

/-- The configuration consumed by the source: `MaxSongDuration` (0 means
unlimited), `SkipRatio` and `PlaylistSkipRatio` (float32). -/
structure GeneralConf where
  MaxSongDuration : Int
  SkipRatio : GoFloat32
  PlaylistSkipRatio : GoFloat32
deriving DecidableEq

/-- `YouTubePlaylist` (lines 239-242): external id and title. -/
structure YouTubePlaylistM where
  id : GoStr
  title : GoStr
deriving DecidableEq

/-- `YouTubeSong` (lines 29-39). The `playlist` pointer is an `Option`;
`none` is the nil pointer. -/
structure YouTubeSongM where
  submitter : GoStr
  title : GoStr
  id : GoStr
  filename : GoStr
  duration : GoStr
  thumbnail : GoStr
  skippers : List GoStr
  playlist : Option YouTubePlaylistM
  dontSkip : Bool
deriving DecidableEq

/-- The `YouTubeSong` composite literals of the source (lines 62-72 and
292-301): `skippers` starts empty and `dontSkip` false in both; the
filename and the playlist pointer are supplied by the call site (the
playlist-expansion literal omits the filename field, so it passes the Go
zero value, the empty string). -/
def mkQueuedSong (user title id filename thumbnail : GoStr) (minutes seconds : Int)
    (playlist : Option YouTubePlaylistM) : YouTubeSongM :=
  { submitter := user
    title := title
    id := id
    filename := filename
    duration := durationDisplay minutes seconds
    thumbnail := thumbnail
    skippers := []
    playlist := playlist
    dontSkip := false }

/-- Result of `NewYouTubeSong`: a Go panic, an error, or the song. -/
inductive SongResult where
  | panicked
  | err (msg : GoStr)
  | ok (song : YouTubeSongM)
deriving DecidableEq

/-- Result of `NewYouTubePlaylist`: a Go panic, an error, or the playlist. -/
inductive PlaylistResult where
  | panicked
  | err (msg : GoStr)
  | ok (p : YouTubePlaylistM)
deriving DecidableEq

/-- Outcome of calling a method that may dereference a nil pointer. -/
inductive AccessOutcome where
  | panicked
  | ok (p : YouTubePlaylistM)
deriving DecidableEq

/-- `YouTubeSong.Playlist` (lines 220-222): `return *s.playlist`, a
dereference of the stored pointer, a runtime fault when it is nil. -/
def youTubeSongPlaylistAccess (s : YouTubeSongM) : AccessOutcome :=
  match s.playlist with
  | none => .panicked
  | some p => .ok p

/-- The duplicate-skip error message of lines 160 and 312. -/
def dupSkipMsg : GoStr :=
  "This user has already skipped the current song.".toList

/-- `YouTubeSong.AddSkip` (lines 157-165), acting on the `skippers`
field: an error and no change when the username is already present,
otherwise success with the username appended. -/
def youTubeSongAddSkip (skippers : List GoStr) (username : GoStr) :
    Except GoStr Unit × List GoStr :=
  if username ∈ skippers then (.error dupSkipMsg, skippers)
  else (.ok (), skippers ++ [username])

/-- The process-wide `dj.playlistSkips` map from playlist id to the
shared list of skippers, modelled as an association list. -/
abbrev PlaylistSkips := List (GoStr × List GoStr)

/-- Go map read `m[k]`: the first binding of the key, or the zero value
(nil slice) when the key is absent. -/
def lookupSkips : PlaylistSkips → GoStr → List GoStr
  | [], _ => []
  | (k', v) :: rest, k => if k' = k then v else lookupSkips rest k

/-- Go `delete(m, k)`: every binding of the key is removed. -/
def deleteSkippersMap : PlaylistSkips → GoStr → PlaylistSkips
  | [], _ => []
  | (k', v) :: rest, k =>
    if k' = k then deleteSkippersMap rest k else (k', v) :: deleteSkippersMap rest k

/-- Whether a Go map contains a key (the second return of `m[k]`). -/
def containsKeySkips : PlaylistSkips → GoStr → Bool
  | [], _ => false
  | (k', _) :: rest, k => if k' = k then true else containsKeySkips rest k

/-- Go map write `m[k] = v`. -/
def goMapSet (m : PlaylistSkips) (k : GoStr) (v : List GoStr) : PlaylistSkips :=
  (k, v) :: deleteSkippersMap m k

/-- `YouTubePlaylist.AddSkip` (lines 309-317), acting on
`dj.playlistSkips[p.id]`. -/
def youTubePlaylistAddSkip (m : PlaylistSkips) (p : YouTubePlaylistM) (username : GoStr) :
    Except GoStr Unit × PlaylistSkips :=
  if username ∈ lookupSkips m p.id then (.error dupSkipMsg, m)
  else (.ok (), goMapSet m p.id (lookupSkips m p.id ++ [username]))

/-- `YouTubePlaylist.DeleteSkippers` (lines 332-334):
`delete(dj.playlistSkips, p.id)`. -/
def youTubePlaylistDeleteSkippers (m : PlaylistSkips) (p : YouTubePlaylistM) : PlaylistSkips :=
  deleteSkippersMap m p.id

/-- `YouTubeSong.SkipReached` (lines 182-187):
`float32(len(s.skippers))/float32(channelUsers) >= dj.conf.General.SkipRatio`. -/
def youTubeSongSkipReached (conf : GeneralConf) (s : YouTubeSongM) (channelUsers : Int) : Bool :=
  f32ge (f32div (f32ofInt (s.skippers.length : Int)) (f32ofInt channelUsers)) conf.SkipRatio

/-- `YouTubePlaylist.SkipReached` (lines 339-344), over the shared vote
set and the playlist skip ratio. -/
def youTubePlaylistSkipReached (conf : GeneralConf) (m : PlaylistSkips)
    (p : YouTubePlaylistM) (channelUsers : Int) : Bool :=
  f32ge (f32div (f32ofInt ((lookupSkips m p.id).length : Int)) (f32ofInt channelUsers))
    conf.PlaylistSkipRatio

/-- A decoded JSON response as queried through `jsonq`: best-effort
string and integer lookups at a path (the source discards every lookup
error, so a missing field is whatever default the oracle supplies). -/
structure ApiResponse where
  getString : List GoStr → GoStr
  getInt : List GoStr → Int

/-- The video metadata URL of line 46. -/
def videoInfoURL (id key : GoStr) : GoStr :=
  "https://www.googleapis.com/youtube/v3/videos?part=snippet,contentDetails&id=".toList
    ++ id ++ "&key=".toList ++ key

/-- The playlist metadata URL of line 249. -/
def playlistInfoURL (id key : GoStr) : GoStr :=
  "https://www.googleapis.com/youtube/v3/playlists?part=snippet&id=".toList
    ++ id ++ "&key=".toList ++ key

/-- The playlist items URL of line 262. -/
def playlistItemsURL (id key : GoStr) : GoStr :=
  "https://www.googleapis.com/youtube/v3/playlistItems?part=snippet&maxResults=25&playlistId=".toList
    ++ id ++ "&key=".toList ++ key

/-- The per-item video details URL of line 280. -/
def videoDetailsURL (id key : GoStr) : GoStr :=
  "https://www.googleapis.com/youtube/v3/videos?part=contentDetails&id=".toList
    ++ id ++ "&key=".toList ++ key

/-- Query path of line 52. -/
def songTitlePath : List GoStr :=
  ["items".toList, "0".toList, "snippet".toList, "title".toList]

/-- Query path of line 53. -/
def songThumbPath : List GoStr :=
  ["items".toList, "0".toList, "snippet".toList, "thumbnails".toList,
   "high".toList, "url".toList]

/-- Query path of lines 54 and 285. -/
def videoDurationPath : List GoStr :=
  ["items".toList, "0".toList, "contentDetails".toList, "duration".toList]

/-- Query path of line 254 (the playlist title really is queried at
`items.0`, not at a `snippet.title` leaf). -/
def playlistTitlePath : List GoStr :=
  ["items".toList, "0".toList]

/-- Query path of line 267. -/
def totalResultsPath : List GoStr :=
  ["pageInfo".toList, "totalResults".toList]

/-- Query path of line 274 for index `idx`. -/
def videoTitlePath (idx : GoStr) : List GoStr :=
  ["items".toList, idx, "snippet".toList, "title".toList]

/-- Query path of line 275 for index `idx`. -/
def videoIdPath (idx : GoStr) : List GoStr :=
  ["items".toList, idx, "snippet".toList, "resourceId".toList, "videoId".toList]

/-- Query path of line 276 for index `idx`. -/
def videoThumbPath (idx : GoStr) : List GoStr :=
  ["items".toList, idx, "snippet".toList, "thumbnails".toList,
   "high".toList, "url".toList]

/-- `NewYouTubeSong` (lines 43-77). The `playlistArg` parameter is
accepted and ignored exactly as in the source, whose literal hard-codes
`playlist: nil` (line 70); the accepted song is appended to the queue
(`dj.queue.AddSong`, line 73) before being returned. -/
def newYouTubeSong (conf : GeneralConf) (key : GoStr)
    (fetch : GoStr → Except GoStr ApiResponse) (user id : GoStr)
    (playlistArg : Option YouTubePlaylistM) (queue : List YouTubeSongM) :
    SongResult × List YouTubeSongM :=
  match fetch (videoInfoURL id key) with
  | .error e => (.err e, queue)
  | .ok resp =>
    match parseDurationChars (resp.getString videoDurationPath) with
    | .panicked => (.panicked, queue)
    | .parsed minutes seconds =>
      if conf.MaxSongDuration = 0 ∨ goTotalSeconds minutes seconds ≤ conf.MaxSongDuration then
        (.ok (mkQueuedSong user (resp.getString songTitlePath) id (id ++ ".m4a".toList)
            (resp.getString songThumbPath) minutes seconds none),
         queue ++ [mkQueuedSong user (resp.getString songTitlePath) id (id ++ ".m4a".toList)
            (resp.getString songThumbPath) minutes seconds none])
      else (.err ("Song exceeds the maximum allowed duration.".toList), queue)

/-- Lines 268-270: `if numVideos > 25 { numVideos = 25 }`. -/
def goClamp25 (totalResults : Int) : Int :=
  if totalResults > 25 then 25 else totalResults

/-- The indices iterated by the loop of line 272
(`for i := 0; i < numVideos; i++`). -/
def playlistIndices (totalResults : Int) : List Nat :=
  List.range (goClamp25 totalResults).toNat

/-- The `YouTubeSong` literal of lines 292-301, built from the item
fields read at index `i` of the current response: the filename field is
omitted in the source literal, so it is the Go zero value (empty string),
and the playlist pointer references the one playlist of this expansion. -/
def loopSong (user : GoStr) (pl : YouTubePlaylistM) (resp : ApiResponse)
    (i : Nat) (minutes seconds : Int) : YouTubeSongM :=
  mkQueuedSong user (resp.getString (videoTitlePath (natDigits i)))
    (resp.getString (videoIdPath (natDigits i))) []
    (resp.getString (videoThumbPath (natDigits i))) minutes seconds (some pl)

/-- The playlist-expansion loop (lines 272-304). The item fields are read
from `resp`, the current value of the `apiResponse` variable, which the
per-item details request of line 282 overwrites before the next
iteration; an accepted song is appended to the queue with a
back-reference to the playlist and no filename field (Go zero value). -/
def playlistLoop (conf : GeneralConf) (key : GoStr)
    (fetch : GoStr → Except GoStr ApiResponse) (user : GoStr)
    (pl : YouTubePlaylistM) :
    ApiResponse → List YouTubeSongM → List Nat → PlaylistResult × List YouTubeSongM
  | _, queue, [] => (.ok pl, queue)
  | resp, queue, i :: rest =>
    match fetch (videoDetailsURL (resp.getString (videoIdPath (natDigits i))) key) with
    | .error e => (.err e, queue)
    | .ok resp2 =>
      match parseDurationChars (resp2.getString videoDurationPath) with
      | .panicked => (.panicked, queue)
      | .parsed minutes seconds =>
        if conf.MaxSongDuration = 0 ∨ goTotalSeconds minutes seconds ≤ conf.MaxSongDuration then
          playlistLoop conf key fetch user pl resp2
            (queue ++ [loopSong user pl resp i minutes seconds]) rest
        else playlistLoop conf key fetch user pl resp2 queue rest

/-- `NewYouTubePlaylist` (lines 245-306): resolve the playlist title,
build the one playlist value, resolve the item listing, clamp the
reported count to 25 and run the expansion loop. -/
def newYouTubePlaylist (conf : GeneralConf) (key : GoStr)
    (fetch : GoStr → Except GoStr ApiResponse) (user id : GoStr)
    (queue : List YouTubeSongM) : PlaylistResult × List YouTubeSongM :=
  match fetch (playlistInfoURL id key) with
  | .error e => (.err e, queue)
  | .ok resp =>
    match fetch (playlistItemsURL id key) with
    | .error e => (.err e, queue)
    | .ok resp2 =>
      playlistLoop conf key fetch user { id := id, title := resp.getString playlistTitlePath }
        resp2 queue (playlistIndices (resp2.getInt totalResultsPath))

/-- The success condition of one expansion trace: every per-item details
request succeeds and every fetched duration string parses without a
fault, following the response threading of the loop. -/
def traceOKb (key : GoStr) (fetch : GoStr → Except GoStr ApiResponse) :
    ApiResponse → List Nat → Bool
  | _, [] => true
  | resp, i :: rest =>
    match fetch (videoDetailsURL (resp.getString (videoIdPath (natDigits i))) key) with
    | .error _ => false
    | .ok resp2 =>
      match parseDurationChars (resp2.getString videoDurationPath) with
      | .panicked => false
      | .parsed _ _ => traceOKb key fetch resp2 rest

/-- The songs a successful expansion registers, written after the words
of the specification: each processed item is kept exactly when its total
seconds pass the configured maximum-duration policy, and every kept item
carries a back-reference to the one playlist value. -/
def specAcceptedSongs (conf : GeneralConf) (key : GoStr)
    (fetch : GoStr → Except GoStr ApiResponse) (user : GoStr)
    (pl : YouTubePlaylistM) : ApiResponse → List Nat → List YouTubeSongM
  | _, [] => []
  | resp, i :: rest =>
    match fetch (videoDetailsURL (resp.getString (videoIdPath (natDigits i))) key) with
    | .error _ => []
    | .ok resp2 =>
      match parseDurationChars (resp2.getString videoDurationPath) with
      | .panicked => []
      | .parsed minutes seconds =>
        if conf.MaxSongDuration = 0 ∨ goTotalSeconds minutes seconds ≤ conf.MaxSongDuration then
          loopSong user pl resp i minutes seconds
            :: specAcceptedSongs conf key fetch user pl resp2 rest
        else specAcceptedSongs conf key fetch user pl resp2 rest

/-! Concrete data used by the witnesses and counterexamples below: an
API key, a submitter, a playlist id, responses and request oracles. -/

/-- A concrete API key. -/
def wKey : GoStr := "k".toList

/-- A concrete submitter name. -/
def wUser : GoStr := "u".toList

/-- A concrete external playlist id. -/
def wPid : GoStr := "p".toList

/-- A concrete configuration: 300-second limit, both ratios one half. -/
def wConf : GeneralConf :=
  { MaxSongDuration := 300
    SkipRatio := .finite (1 / 2)
    PlaylistSkipRatio := .finite (1 / 2) }

/-- The playlist value the concrete expansion builds. -/
def wPl : YouTubePlaylistM := { id := wPid, title := "MyList".toList }

/-- Playlist-info response: the title query yields `MyList`. -/
def wResp1 : ApiResponse :=
  { getString := fun q => if q = playlistTitlePath then "MyList".toList else []
    getInt := fun _ => 0 }

/-- Item-listing response: three reported items, item 0 has video id
`a`; every other field query yields the empty default. -/
def wResp2 : ApiResponse :=
  { getString := fun q => if q = videoIdPath (natDigits 0) then "a".toList else []
    getInt := fun q => if q = totalResultsPath then 3 else 0 }

/-- Details response for video `a` (duration one minute); because the
loop reuses one response variable, iteration 1 reads item fields from
this response, so it also carries the video id of item 1. -/
def wRespA : ApiResponse :=
  { getString := fun q =>
      if q = videoDurationPath then "PT1M0S".toList
      else if q = videoIdPath (natDigits 1) then "b".toList else []
    getInt := fun _ => 0 }

/-- Details response for video `b` (ten minutes, over the 300-second
limit), carrying the video id of item 2. -/
def wRespB : ApiResponse :=
  { getString := fun q =>
      if q = videoDurationPath then "PT10M0S".toList
      else if q = videoIdPath (natDigits 2) then "c".toList else []
    getInt := fun _ => 0 }

/-- Details response for video `c` (two minutes). -/
def wRespC : ApiResponse :=
  { getString := fun q => if q = videoDurationPath then "PT2M0S".toList else []
    getInt := fun _ => 0 }

/-- Request oracle for a three-item expansion in which the middle item
exceeds the duration limit and the other two are accepted. -/
def wFetch : GoStr → Except GoStr ApiResponse := fun url =>
  if url = playlistInfoURL wPid wKey then .ok wResp1
  else if url = playlistItemsURL wPid wKey then .ok wResp2
  else if url = videoDetailsURL ("a".toList) wKey then .ok wRespA
  else if url = videoDetailsURL ("b".toList) wKey then .ok wRespB
  else if url = videoDetailsURL ("c".toList) wKey then .ok wRespC
  else .error ("Invalid YouTube ID supplied.".toList)

/-- Item-listing response for the aborted expansion: one reported item
whose video id `x` has no details response. -/
def cResp2 : ApiResponse :=
  { getString := fun q => if q = videoIdPath (natDigits 0) then "x".toList else []
    getInt := fun q => if q = totalResultsPath then 1 else 0 }

/-- Request oracle whose playlist-info and item-listing requests succeed
while every per-item details request fails. -/
def cFetch : GoStr → Except GoStr ApiResponse := fun url =>
  if url = playlistInfoURL wPid wKey then .ok wResp1
  else if url = playlistItemsURL wPid wKey then .ok cResp2
  else .error ("Invalid YouTube ID supplied.".toList)

/-- Video response resolving to a 301-second duration. -/
def sResp301 : ApiResponse :=
  { getString := fun q => if q = videoDurationPath then "PT5M1S".toList else []
    getInt := fun _ => 0 }

/-- Video response resolving to a 300-second duration. -/
def sResp300 : ApiResponse :=
  { getString := fun q => if q = videoDurationPath then "PT5M0S".toList else []
    getInt := fun _ => 0 }

/-- Oracle answering every request with the 301-second video. -/
def sFetch301 : GoStr → Except GoStr ApiResponse := fun _ => .ok sResp301

/-- Oracle answering every request with the 300-second video. -/
def sFetch300 : GoStr → Except GoStr ApiResponse := fun _ => .ok sResp300

/-- A song with no recorded skip votes. -/
def wSongNoSkip : YouTubeSongM :=
  { submitter := wUser, title := [], id := "v".toList, filename := []
    duration := [], thumbnail := [], skippers := []
    playlist := none, dontSkip := false }

/-- A song with one recorded skip vote. -/
def wSongOneSkip : YouTubeSongM :=
  { submitter := wUser, title := [], id := "v".toList, filename := []
    duration := [], thumbnail := [], skippers := ["alice".toList]
    playlist := none, dontSkip := false }

/-- A process-wide skip map with one recorded vote for playlist `p`. -/
def wSkipsMap : PlaylistSkips := [(wPid, ["alice".toList])]

/-! Helper lemmas about decimal digits and the duration parser. -/

theorem digitChar_isDigit (d : Nat) : (digitChar d).isDigit = true := by
  unfold digitChar
  split_ifs <;> decide

theorem digitChar_toNat (d : Nat) (h : d < 10) : (digitChar d).toNat = 48 + d := by
  unfold digitChar
  split_ifs with h0 h1 h2 h3 h4 h5 h6 h7 h8 <;>
    first
      | (subst_vars; decide)
      | (have h9 : d = 9 := by omega
         subst h9; decide)

theorem natDigitsAux_congr : ∀ (n fuel1 fuel2 : Nat), n < fuel1 → n < fuel2 →
    natDigitsAux fuel1 n = natDigitsAux fuel2 n := by
  intro n
  induction n using Nat.strong_induction_on with
  | _ n ih =>
    intro fuel1 fuel2 h1 h2
    cases fuel1 with
    | zero => omega
    | succ f1 =>
      cases fuel2 with
      | zero => omega
      | succ f2 =>
        simp only [natDigitsAux]
        split_ifs with h
        · rfl
        · congr 1
          exact ih (n / 10) (by omega) f1 f2 (by omega) (by omega)

theorem natDigits_eq (n : Nat) :
    natDigits n
      = if n < 10 then [digitChar n] else natDigits (n / 10) ++ [digitChar (n % 10)] := by
  by_cases h : n < 10
  · rw [if_pos h]
    unfold natDigits
    simp only [natDigitsAux]
    rw [if_pos h]
  · rw [if_neg h]
    unfold natDigits
    conv_lhs => simp only [natDigitsAux]
    rw [if_neg h]
    congr 1
    exact natDigitsAux_congr (n / 10) n (n / 10 + 1) (by omega) (by omega)

theorem natDigits_ne_nil (n : Nat) : natDigits n ≠ [] := by
  rw [natDigits_eq]
  split <;> simp

theorem natDigits_all_isDigit (n : Nat) : ∀ c ∈ natDigits n, c.isDigit = true := by
  induction n using Nat.strong_induction_on with
  | _ n ih =>
    rw [natDigits_eq]
    split
    next h =>
      intro c hc
      rw [List.mem_singleton] at hc
      subst hc
      exact digitChar_isDigit n
    next h =>
      intro c hc
      rw [List.mem_append] at hc
      rcases hc with hc | hc
      · exact ih (n / 10) (Nat.div_lt_self (by omega) (by omega)) c hc
      · rw [List.mem_singleton] at hc
        subst hc
        exact digitChar_isDigit _

theorem foldl_digits_natDigits (n : Nat) : ∀ a : Nat,
    (natDigits n).foldl (fun a c => a * 10 + (c.toNat - 48)) a
      = a * 10 ^ (natDigits n).length + n := by
  induction n using Nat.strong_induction_on with
  | _ n ih =>
    intro a
    rw [natDigits_eq]
    split
    next h =>
      simp only [List.foldl_cons, List.foldl_nil, List.length_singleton, pow_one,
        digitChar_toNat n h]
      omega
    next h =>
      rw [List.foldl_append, ih (n / 10) (Nat.div_lt_self (by omega) (by omega)) a]
      simp only [List.foldl_cons, List.foldl_nil, List.length_append,
        List.length_singleton, digitChar_toNat (n % 10) (Nat.mod_lt n (by omega))]
      rw [pow_succ, ← mul_assoc]
      set t := a * 10 ^ (natDigits (n / 10)).length with ht
      omega

theorem digitsToNat_natDigits (n : Nat) : digitsToNat (natDigits n) = n := by
  have h := foldl_digits_natDigits n 0
  simpa [digitsToNat] using h

theorem isDigit_ne_M {c : Char} (h : c.isDigit = true) : c ≠ 'M' := by
  intro e
  rw [e] at h
  exact absurd h (by decide)

theorem goParseInt_natDigits (n : Nat) (h : n ≤ 2147483647) :
    goParseInt (natDigits n) = some (n : Int) := by
  obtain ⟨c, rest, hcr⟩ : ∃ c rest, natDigits n = c :: rest := by
    cases hnd : natDigits n with
    | nil => exact absurd hnd (natDigits_ne_nil n)
    | cons c rest => exact ⟨c, rest, rfl⟩
  have hall : (c :: rest).all Char.isDigit = true := by
    rw [← hcr, List.all_eq_true]
    exact natDigits_all_isDigit n
  have hc : c.isDigit = true := by
    refine natDigits_all_isDigit n c ?_
    rw [hcr]
    exact List.mem_cons_self c rest
  have hplus : ¬(c = '+') := by
    intro e
    rw [e] at hc
    exact absurd hc (by decide)
  have hminus : ¬(c = '-') := by
    intro e
    rw [e] at hc
    exact absurd hc (by decide)
  rw [hcr]
  simp only [goParseInt]
  rw [if_neg hplus, if_neg hminus, if_pos hall, ← hcr, digitsToNat_natDigits]
  unfold clamp32
  rw [if_neg (by omega), if_neg (by omega)]

theorem goIndexOf_no_occurrence_append (xs ys : List Char) (c : Char)
    (h : ∀ x ∈ xs, x ≠ c) : goIndexOf (xs ++ c :: ys) c = (xs.length : Int) := by
  induction xs with
  | nil => simp [goIndexOf]
  | cons x xs ih =>
    have hx : ¬(x = c) := h x (List.mem_cons_self x xs)
    have ih2 := ih (fun y hy => h y (List.mem_cons_of_mem x hy))
    rw [List.cons_append, goIndexOf, if_neg hx, ih2, if_neg (by omega)]
    simp only [List.length_cons]
    push_cast
    ring

theorem take_length_append (l1 l2 : List Char) : (l1 ++ l2).take l1.length = l1 := by
  induction l1 with
  | nil => simp
  | cons x xs ih => simp [ih]

theorem drop_length_append (l1 l2 : List Char) : (l1 ++ l2).drop l1.length = l2 := by
  induction l1 with
  | nil => simp
  | cons x xs ih => simp [ih]

theorem parseDurationChars_eq (cs mStr sStr : List Char)
    (h1 : goSlice cs 2 (goIndexOf cs 'M') = some mStr)
    (h2 : goSlice cs (goIndexOf cs 'M' + 1) ((cs.length : Int) - 1) = some sStr) :
    parseDurationChars cs = .parsed ((goParseInt mStr).getD 0) ((goParseInt sStr).getD 0) := by
  unfold parseDurationChars
  rw [h1, h2]

theorem parseDuration_encode (m s : Nat) (hm : m ≤ 2147483647) (hs : s ≤ 2147483647) :
    parseDurationChars (encodeDuration m s) = .parsed (m : Int) (s : Int) := by
  have hsplit : encodeDuration m s
      = ('P' :: 'T' :: natDigits m) ++ 'M' :: (natDigits s ++ ['S']) := by
    simp [encodeDuration]
  have hnoM : ∀ x ∈ 'P' :: 'T' :: natDigits m, x ≠ 'M' := by
    intro x hx
    rw [List.mem_cons] at hx
    rcases hx with rfl | hx
    · decide
    · rw [List.mem_cons] at hx
      rcases hx with rfl | hx
      · decide
      · exact isDigit_ne_M (natDigits_all_isDigit m x hx)
  have hidx : goIndexOf (encodeDuration m s) 'M'
      = (((natDigits m).length + 2 : Nat) : Int) := by
    rw [hsplit, goIndexOf_no_occurrence_append _ _ _ hnoM]
    simp only [List.length_cons]
  have hlen : (encodeDuration m s).length
      = (natDigits m).length + (natDigits s).length + 4 := by
    simp only [encodeDuration, List.length_cons, List.length_append, List.length_singleton,
      List.length_nil]
    omega
  have hslice1 : goSlice (encodeDuration m s) 2 (goIndexOf (encodeDuration m s) 'M')
      = some (natDigits m) := by
    rw [hidx]
    unfold goSlice
    rw [if_pos ⟨by omega, by push_cast; omega, by rw [hlen]; push_cast; omega⟩]
    congr 1
    have hd : (encodeDuration m s).drop ((2 : Int).toNat)
        = natDigits m ++ 'M' :: (natDigits s ++ ['S']) := by
      simp [encodeDuration]
    rw [hd]
    have ht : ((((natDigits m).length + 2 : Nat) : Int) - 2).toNat = (natDigits m).length := by
      omega
    rw [ht, take_length_append]
  have hslice2 : goSlice (encodeDuration m s) (goIndexOf (encodeDuration m s) 'M' + 1)
      (((encodeDuration m s).length : Int) - 1) = some (natDigits s) := by
    rw [hidx, hlen]
    unfold goSlice
    rw [if_pos ⟨by push_cast; omega, by push_cast; omega, by rw [hlen]; push_cast; omega⟩]
    congr 1
    have h1 : (((((natDigits m).length + 2 : Nat) : Int) + 1)).toNat
        = (natDigits m).length + 3 := by
      omega
    rw [h1]
    have hd : (encodeDuration m s).drop ((natDigits m).length + 3)
        = natDigits s ++ ['S'] := by
      have he : encodeDuration m s
          = (('P' :: 'T' :: natDigits m) ++ ['M']) ++ (natDigits s ++ ['S']) := by
        simp [encodeDuration]
      have hl : (('P' :: 'T' :: natDigits m) ++ ['M']).length = (natDigits m).length + 3 := by
        simp only [List.length_append, List.length_cons, List.length_singleton,
          List.length_nil]
      rw [he, ← hl, drop_length_append]
    rw [hd]
    have h2 : (((((natDigits m).length + (natDigits s).length + 4 : Nat) : Int) - 1)
        - ((((natDigits m).length + 2 : Nat) : Int) + 1)).toNat = (natDigits s).length := by
      omega
    rw [h2, take_length_append]
  rw [parseDurationChars_eq _ _ _ hslice1 hslice2,
    goParseInt_natDigits m hm, goParseInt_natDigits s hs]
  rfl

/-- C3: for minutes and seconds in 0..59, parsing the well-formed encoded
duration (prefix `PT`, minutes terminated by `M`, seconds terminated by
the trailing `S`) yields exactly those minutes and seconds; the total is
`m*60+s` and the display is `m:s` with no zero-padding of the seconds. -/
theorem duration_codec_roundtrip (m s : Nat) (hm : m ≤ 59) (hs : s ≤ 59) :
    parseDurationChars (encodeDuration m s) = .parsed (m : Int) (s : Int)
    ∧ goTotalSeconds (m : Int) (s : Int) = 60 * (m : Int) + (s : Int)
    ∧ durationDisplay (m : Int) (s : Int) = natDigits m ++ ':' :: natDigits s := by
  refine ⟨parseDuration_encode m s (by omega) (by omega), ?_, ?_⟩
  · unfold goTotalSeconds
    ring
  · unfold durationDisplay intRender
    rw [if_neg (by omega), if_neg (by omega)]
    have h1 : ((m : Int)).toNat = m := by omega
    have h2 : ((s : Int)).toNat = s := by omega
    rw [h1, h2]

/-- C3 witness: the round-trip at minutes 3 and seconds 5. -/
theorem duration_codec_roundtrip_witness :
    parseDurationChars (encodeDuration 3 5) = .parsed 3 5
    ∧ goTotalSeconds 3 5 = 60 * 3 + 5
    ∧ durationDisplay 3 5 = natDigits 3 ++ ':' :: natDigits 5 := by
  exact duration_codec_roundtrip 3 5 (by decide) (by decide)

/-- C2: evaluation of the duration parse at malformed inputs. For
`PTM5` (an `M` but no trailing `S` terminator around the seconds) both
`ParseInt` calls fail, the errors are discarded, and the parse silently
yields zero minutes and zero seconds with no error; for `PT30S` (no `M`)
and `PT1M` (`M` last, nothing after it) the slice bounds are invalid and
the code faults instead of reporting a malformed-duration error. -/
theorem malformed_duration_eval :
    parseDurationChars ("PTM5".toList) = .parsed 0 0
    ∧ parseDurationChars ("PT30S".toList) = .panicked
    ∧ parseDurationChars ("PT1M".toList) = .panicked := by
  exact ⟨by decide, by decide, by decide⟩

theorem f32_ratio_zero_denominator (votes : Nat) (ratio : GoFloat32) :
    (votes = 0 → f32ge (f32div (f32ofInt (votes : Int)) (f32ofInt 0)) ratio = false)
    ∧ (votes ≠ 0 → ratio ≠ .nan →
        f32ge (f32div (f32ofInt (votes : Int)) (f32ofInt 0)) ratio = true) := by
  constructor
  · rintro rfl
    have h : f32div (f32ofInt ((0 : Nat) : Int)) (f32ofInt 0) = .nan := by
      norm_num [f32ofInt, f32div]
    rw [h]
    cases ratio <;> rfl
  · intro hv hr
    have h1 : ((votes : Int) : ℚ) ≠ 0 := by
      push_cast
      exact Nat.cast_ne_zero.mpr hv
    have h2 : (0 : ℚ) < ((votes : Int) : ℚ) := by
      push_cast
      exact_mod_cast Nat.pos_of_ne_zero hv
    have h : f32div (f32ofInt (votes : Int)) (f32ofInt 0) = .posInf := by
      simp only [f32ofInt, f32div]
      rw [if_pos (by norm_num), if_neg h1, if_pos h2]
    rw [h]
    cases ratio with
    | nan => exact absurd rfl hr
    | posInf => rfl
    | negInf => rfl
    | finite q => rfl

/-- C1 counterexample: with one recorded skip vote and a listener count
of 0, `SkipReached` returns `true` (the IEEE quotient 1/0 is positive
infinity, which compares greater-or-equal to the configured ratio one
half), not `false` as the claim states, for the song and for the
playlist variant alike. -/
theorem skip_zero_listeners_counterexample :
    youTubeSongSkipReached wConf wSongOneSkip 0 = true
    ∧ youTubePlaylistSkipReached wConf wSkipsMap wPl 0 = true := by
  exact ⟨by decide, by decide⟩

/-- C1 (amended): `SkipReached` with a listener count of 0 never faults
(IEEE division is total) and returns `false` exactly when no skip vote is
recorded (the quotient 0/0 is NaN, and NaN compares false); with at least
one recorded vote the quotient is positive infinity and the call returns
`true` for every non-NaN configured ratio. This holds for the song vote
set and for the playlist shared vote set. -/
theorem skip_zero_listeners_amended (conf : GeneralConf) (s : YouTubeSongM)
    (m : PlaylistSkips) (p : YouTubePlaylistM) :
    (s.skippers = [] → youTubeSongSkipReached conf s 0 = false)
    ∧ (s.skippers ≠ [] → conf.SkipRatio ≠ .nan →
        youTubeSongSkipReached conf s 0 = true)
    ∧ (lookupSkips m p.id = [] → youTubePlaylistSkipReached conf m p 0 = false)
    ∧ (lookupSkips m p.id ≠ [] → conf.PlaylistSkipRatio ≠ .nan →
        youTubePlaylistSkipReached conf m p 0 = true) := by
  refine ⟨?_, ?_, ?_, ?_⟩
  · intro h
    unfold youTubeSongSkipReached
    rw [h]
    exact (f32_ratio_zero_denominator 0 conf.SkipRatio).1 rfl
  · intro h hr
    cases hsk : s.skippers with
    | nil => exact absurd hsk h
    | cons x xs =>
      unfold youTubeSongSkipReached
      rw [hsk]
      exact (f32_ratio_zero_denominator (xs.length + 1) conf.SkipRatio).2 (by omega) hr
  · intro h
    unfold youTubePlaylistSkipReached
    rw [h]
    exact (f32_ratio_zero_denominator 0 conf.PlaylistSkipRatio).1 rfl
  · intro h hr
    cases hsk : lookupSkips m p.id with
    | nil => exact absurd hsk h
    | cons x xs =>
      unfold youTubePlaylistSkipReached
      rw [hsk]
      exact (f32_ratio_zero_denominator (xs.length + 1) conf.PlaylistSkipRatio).2 (by omega) hr

/-- C1 witness: with ratio one half, zero listeners and no votes the song
check returns false; with one vote it returns true. -/
theorem skip_zero_listeners_amended_witness :
    youTubeSongSkipReached wConf wSongNoSkip 0 = false
    ∧ youTubeSongSkipReached wConf wSongOneSkip 0 = true
    ∧ youTubePlaylistSkipReached wConf wSkipsMap wPl 0 = true := by
  refine ⟨?_, ?_, ?_⟩
  · exact (skip_zero_listeners_amended wConf wSongNoSkip [] wPl).1 rfl
  · exact (skip_zero_listeners_amended wConf wSongOneSkip [] wPl).2.1 (by decide) (by decide)
  · exact (skip_zero_listeners_amended wConf wSongNoSkip wSkipsMap wPl).2.2.2 (by decide) (by decide)

/-- C5: for a song vote set and for the playlist shared vote set, an
`AddSkip` with a voter already present fails with the duplicate-vote
error and leaves the set unchanged, while an absent voter is appended. -/
theorem addSkip_duplicate_vote :
    (∀ (skippers : List GoStr) (u : GoStr),
      (u ∈ skippers → youTubeSongAddSkip skippers u = (.error dupSkipMsg, skippers))
      ∧ (u ∉ skippers → youTubeSongAddSkip skippers u = (.ok (), skippers ++ [u])))
    ∧ (∀ (m : PlaylistSkips) (p : YouTubePlaylistM) (u : GoStr),
      (u ∈ lookupSkips m p.id → youTubePlaylistAddSkip m p u = (.error dupSkipMsg, m))
      ∧ (u ∉ lookupSkips m p.id →
          (youTubePlaylistAddSkip m p u).1 = .ok ()
          ∧ lookupSkips (youTubePlaylistAddSkip m p u).2 p.id
              = lookupSkips m p.id ++ [u])) := by
  constructor
  · intro sk u
    constructor
    · intro h
      unfold youTubeSongAddSkip
      rw [if_pos h]
    · intro h
      unfold youTubeSongAddSkip
      rw [if_neg h]
  · intro m p u
    constructor
    · intro h
      unfold youTubePlaylistAddSkip
      rw [if_pos h]
    · intro h
      unfold youTubePlaylistAddSkip
      rw [if_neg h]
      refine ⟨rfl, ?_⟩
      simp only [goMapSet, lookupSkips]
      simp

/-- C5 witness: a duplicate vote by alice is rejected and the set kept;
a first vote by alice is appended, on a song and on a playlist. -/
theorem addSkip_duplicate_vote_witness :
    youTubeSongAddSkip ["alice".toList] ("alice".toList)
        = (.error dupSkipMsg, ["alice".toList])
    ∧ youTubeSongAddSkip [] ("alice".toList) = (.ok (), [] ++ ["alice".toList])
    ∧ youTubePlaylistAddSkip wSkipsMap wPl ("alice".toList)
        = (.error dupSkipMsg, wSkipsMap) := by
  refine ⟨?_, ?_, ?_⟩
  · exact (addSkip_duplicate_vote.1 ["alice".toList] ("alice".toList)).1 (by decide)
  · exact (addSkip_duplicate_vote.1 [] ("alice".toList)).2 (by decide)
  · exact (addSkip_duplicate_vote.2 wSkipsMap wPl ("alice".toList)).1 (by decide)

/-- C7: the expansion loop iterates over exactly the reported item count
clamped at 25: for a reported count above 25 it iterates 25 times, and
otherwise exactly the reported count, never more than 25. -/
theorem playlist_cap_at_25 (n : Nat) :
    (playlistIndices (n : Int)).length = (if 25 < (n : Int) then 25 else n)
    ∧ (playlistIndices (n : Int)).length ≤ 25 := by
  unfold playlistIndices goClamp25
  rw [List.length_range]
  constructor
  · split_ifs with h
    · rfl
    · omega
  · split_ifs <;> omega

theorem lookupSkips_delete (m : PlaylistSkips) (k : GoStr) :
    lookupSkips (deleteSkippersMap m k) k = [] := by
  induction m with
  | nil => rfl
  | cons e rest ih =>
    obtain ⟨k2, v⟩ := e
    rw [deleteSkippersMap]
    split_ifs with h
    · exact ih
    · rw [lookupSkips, if_neg h]
      exact ih

theorem containsKeySkips_delete (m : PlaylistSkips) (k : GoStr) :
    containsKeySkips (deleteSkippersMap m k) k = false := by
  induction m with
  | nil => rfl
  | cons e rest ih =>
    obtain ⟨k2, v⟩ := e
    rw [deleteSkippersMap]
    split_ifs with h
    · exact ih
    · rw [containsKeySkips, if_neg h]
      exact ih

/-- C8: after `DeleteSkippers`, the vote set keyed by the playlist id is
absent from the process-wide map (not found, and a lookup yields the
empty set), and a subsequent `AddSkip` on the same playlist id succeeds
from a fresh empty set, leaving exactly the one new voter. -/
theorem release_playlist_votes (m : PlaylistSkips) (p : YouTubePlaylistM) (u : GoStr) :
    containsKeySkips (youTubePlaylistDeleteSkippers m p) p.id = false
    ∧ lookupSkips (youTubePlaylistDeleteSkippers m p) p.id = []
    ∧ (youTubePlaylistAddSkip (youTubePlaylistDeleteSkippers m p) p u).1 = .ok ()
    ∧ lookupSkips (youTubePlaylistAddSkip (youTubePlaylistDeleteSkippers m p) p u).2 p.id
        = [u] := by
  unfold youTubePlaylistDeleteSkippers
  refine ⟨containsKeySkips_delete m p.id, lookupSkips_delete m p.id, ?_, ?_⟩
  · unfold youTubePlaylistAddSkip
    rw [lookupSkips_delete]
    rw [if_neg (List.not_mem_nil u)]
  · unfold youTubePlaylistAddSkip
    rw [lookupSkips_delete]
    rw [if_neg (List.not_mem_nil u)]
    simp only [goMapSet, lookupSkips]
    simp

/-- C4: with the resolution succeeding and the duration parsed, the
sentinel maximum 0 always accepts and registers the song; a nonzero
maximum rejects a song whose total seconds strictly exceed it with the
duration error and leaves the queue untouched; a song whose total
seconds equal the maximum is accepted and registered. -/
theorem max_duration_policy (conf : GeneralConf) (key : GoStr)
    (fetch : GoStr → Except GoStr ApiResponse) (user id : GoStr)
    (playlistArg : Option YouTubePlaylistM) (queue : List YouTubeSongM)
    (resp : ApiResponse) (minutes seconds : Int)
    (hf : fetch (videoInfoURL id key) = .ok resp)
    (hp : parseDurationChars (resp.getString videoDurationPath) = .parsed minutes seconds) :
    (conf.MaxSongDuration = 0 →
      newYouTubeSong conf key fetch user id playlistArg queue
        = (.ok (mkQueuedSong user (resp.getString songTitlePath) id (id ++ ".m4a".toList)
              (resp.getString songThumbPath) minutes seconds none),
           queue ++ [mkQueuedSong user (resp.getString songTitlePath) id (id ++ ".m4a".toList)
              (resp.getString songThumbPath) minutes seconds none]))
    ∧ (conf.MaxSongDuration ≠ 0 → goTotalSeconds minutes seconds > conf.MaxSongDuration →
      newYouTubeSong conf key fetch user id playlistArg queue
        = (.err ("Song exceeds the maximum allowed duration.".toList), queue))
    ∧ (goTotalSeconds minutes seconds = conf.MaxSongDuration →
      newYouTubeSong conf key fetch user id playlistArg queue
        = (.ok (mkQueuedSong user (resp.getString songTitlePath) id (id ++ ".m4a".toList)
              (resp.getString songThumbPath) minutes seconds none),
           queue ++ [mkQueuedSong user (resp.getString songTitlePath) id (id ++ ".m4a".toList)
              (resp.getString songThumbPath) minutes seconds none])) := by
  unfold newYouTubeSong
  simp only [hf, hp]
  refine ⟨?_, ?_, ?_⟩
  · intro h
    rw [if_pos (Or.inl h)]
  · intro h1 h2
    rw [if_neg ?_]
    rintro (e | e)
    · exact h1 e
    · exact absurd e (not_le.mpr h2)
  · intro h
    rw [if_pos (Or.inr (le_of_eq h))]

/-- C4 witness: with a 300-second maximum, a resolved 301-second video is
rejected and not registered, a resolved 300-second video is accepted and
registered. -/
theorem max_duration_policy_witness :
    newYouTubeSong wConf wKey sFetch301 wUser ("v".toList) none []
        = (.err ("Song exceeds the maximum allowed duration.".toList), [])
    ∧ newYouTubeSong wConf wKey sFetch300 wUser ("v".toList) none []
        = (.ok (mkQueuedSong wUser (sResp300.getString songTitlePath) ("v".toList)
              ("v".toList ++ ".m4a".toList) (sResp300.getString songThumbPath) 5 0 none),
           [] ++ [mkQueuedSong wUser (sResp300.getString songTitlePath) ("v".toList)
              ("v".toList ++ ".m4a".toList) (sResp300.getString songThumbPath) 5 0 none]) := by
  constructor
  · exact (max_duration_policy wConf wKey sFetch301 wUser ("v".toList) none [] sResp301 5 1
      rfl (by decide)).2.1 (by decide) (by decide)
  · exact (max_duration_policy wConf wKey sFetch300 wUser ("v".toList) none [] sResp300 5 0
      rfl (by decide)).2.2 (by decide)

theorem playlistLoop_added (conf : GeneralConf) (key : GoStr)
    (fetch : GoStr → Except GoStr ApiResponse) (user : GoStr) (pl : YouTubePlaylistM) :
    ∀ (idxs : List Nat) (resp : ApiResponse) (queue : List YouTubeSongM),
      ∃ added, (playlistLoop conf key fetch user pl resp queue idxs).2 = queue ++ added
        ∧ ∀ s2 ∈ added, s2.playlist = some pl ∧ s2.filename = [] ∧ s2.submitter = user := by
  intro idxs
  induction idxs with
  | nil =>
    intro resp queue
    exact ⟨[], by simp [playlistLoop], by simp⟩
  | cons i rest ih =>
    intro resp queue
    simp only [playlistLoop]
    cases hf : fetch (videoDetailsURL (resp.getString (videoIdPath (natDigits i))) key) with
    | error e =>
      simp only [hf]
      exact ⟨[], by simp, by simp⟩
    | ok resp2 =>
      simp only [hf]
      cases hp : parseDurationChars (resp2.getString videoDurationPath) with
      | panicked =>
        simp only [hp]
        exact ⟨[], by simp, by simp⟩
      | parsed minutes seconds =>
        simp only [hp]
        by_cases hacc : conf.MaxSongDuration = 0
            ∨ goTotalSeconds minutes seconds ≤ conf.MaxSongDuration
        · rw [if_pos hacc]
          obtain ⟨added, he, hprops⟩ :=
            ih resp2 (queue ++ [loopSong user pl resp i minutes seconds])
          refine ⟨loopSong user pl resp i minutes seconds :: added, ?_, ?_⟩
          · rw [he]
            simp
          · intro s2 hs2
            rcases List.mem_cons.mp hs2 with rfl | hs2
            · exact ⟨rfl, rfl, rfl⟩
            · exact hprops s2 hs2
        · rw [if_neg hacc]
          exact ih resp2 queue

theorem playlistLoop_of_traceOK (conf : GeneralConf) (key : GoStr)
    (fetch : GoStr → Except GoStr ApiResponse) (user : GoStr) (pl : YouTubePlaylistM) :
    ∀ (idxs : List Nat) (resp : ApiResponse) (queue : List YouTubeSongM),
      traceOKb key fetch resp idxs = true →
      playlistLoop conf key fetch user pl resp queue idxs
        = (.ok pl, queue ++ specAcceptedSongs conf key fetch user pl resp idxs) := by
  intro idxs
  induction idxs with
  | nil =>
    intro resp queue _
    simp [playlistLoop, specAcceptedSongs]
  | cons i rest ih =>
    intro resp queue htr
    simp only [traceOKb] at htr
    cases hf : fetch (videoDetailsURL (resp.getString (videoIdPath (natDigits i))) key) with
    | error e =>
      simp only [hf] at htr
      simp at htr
    | ok resp2 =>
      simp only [hf] at htr
      cases hp : parseDurationChars (resp2.getString videoDurationPath) with
      | panicked =>
        simp only [hp] at htr
        simp at htr
      | parsed minutes seconds =>
        simp only [hp] at htr
        simp only [playlistLoop, specAcceptedSongs, hf, hp]
        by_cases hacc : conf.MaxSongDuration = 0
            ∨ goTotalSeconds minutes seconds ≤ conf.MaxSongDuration
        · rw [if_pos hacc, if_pos hacc,
            ih resp2 (queue ++ [loopSong user pl resp i minutes seconds]) htr]
          simp [List.append_assoc]
        · rw [if_neg hacc, if_neg hacc, ih resp2 queue htr]

theorem specAcceptedSongs_props (conf : GeneralConf) (key : GoStr)
    (fetch : GoStr → Except GoStr ApiResponse) (user : GoStr) (pl : YouTubePlaylistM) :
    ∀ (idxs : List Nat) (resp : ApiResponse),
      ∀ s2 ∈ specAcceptedSongs conf key fetch user pl resp idxs,
        s2.playlist = some pl ∧ s2.filename = [] := by
  intro idxs
  induction idxs with
  | nil =>
    intro resp s2 hs2
    simp [specAcceptedSongs] at hs2
  | cons i rest ih =>
    intro resp s2 hs2
    simp only [specAcceptedSongs] at hs2
    cases hf : fetch (videoDetailsURL (resp.getString (videoIdPath (natDigits i))) key) with
    | error e =>
      simp only [hf] at hs2
      exact absurd hs2 (List.not_mem_nil s2)
    | ok resp2 =>
      simp only [hf] at hs2
      cases hp : parseDurationChars (resp2.getString videoDurationPath) with
      | panicked =>
        simp only [hp] at hs2
        exact absurd hs2 (List.not_mem_nil s2)
      | parsed minutes seconds =>
        simp only [hp] at hs2
        by_cases hacc : conf.MaxSongDuration = 0
            ∨ goTotalSeconds minutes seconds ≤ conf.MaxSongDuration
        · rw [if_pos hacc] at hs2
          rcases List.mem_cons.mp hs2 with rfl | hs2
          · exact ⟨rfl, rfl⟩
          · exact ih resp2 s2 hs2
        · rw [if_neg hacc] at hs2
          exact ih resp2 s2 hs2

/-- C6 (amended): for an expansion in which the title resolution, the
item-listing resolution, every per-item details request and every
per-item duration parse succeed, each processed item failing the
maximum-duration policy is silently skipped (it contributes nothing to
the registered songs and surfaces no error), every accepted item is
registered with a back-reference to the one created playlist, and the
playlist is returned with no error regardless of how many items were
accepted. -/
theorem playlist_expansion_amended (conf : GeneralConf) (key : GoStr)
    (fetch : GoStr → Except GoStr ApiResponse) (user id : GoStr)
    (queue : List YouTubeSongM) (resp1 resp2 : ApiResponse)
    (h1 : fetch (playlistInfoURL id key) = .ok resp1)
    (h2 : fetch (playlistItemsURL id key) = .ok resp2)
    (h3 : traceOKb key fetch resp2 (playlistIndices (resp2.getInt totalResultsPath)) = true) :
    newYouTubePlaylist conf key fetch user id queue
        = (.ok { id := id, title := resp1.getString playlistTitlePath },
           queue ++ specAcceptedSongs conf key fetch user
             { id := id, title := resp1.getString playlistTitlePath } resp2
             (playlistIndices (resp2.getInt totalResultsPath)))
    ∧ ∀ s2 ∈ specAcceptedSongs conf key fetch user
          { id := id, title := resp1.getString playlistTitlePath } resp2
          (playlistIndices (resp2.getInt totalResultsPath)),
        s2.playlist = some { id := id, title := resp1.getString playlistTitlePath } := by
  constructor
  · unfold newYouTubePlaylist
    simp only [h1, h2]
    exact playlistLoop_of_traceOK conf key fetch user
      { id := id, title := resp1.getString playlistTitlePath }
      (playlistIndices (resp2.getInt totalResultsPath)) resp2 queue h3
  · intro s2 hs2
    exact (specAcceptedSongs_props conf key fetch user
      { id := id, title := resp1.getString playlistTitlePath }
      (playlistIndices (resp2.getInt totalResultsPath)) resp2 s2 hs2).1

/-- C6 witness: a three-item expansion with a 300-second limit in which
the middle item lasts 600 seconds: the whole trace succeeds, the playlist
is returned without error, and exactly the two conforming items are
registered. -/
theorem playlist_expansion_amended_witness :
    traceOKb wKey wFetch wResp2 (playlistIndices (wResp2.getInt totalResultsPath)) = true
    ∧ newYouTubePlaylist wConf wKey wFetch wUser wPid []
        = (.ok { id := wPid, title := wResp1.getString playlistTitlePath },
           [] ++ specAcceptedSongs wConf wKey wFetch wUser
             { id := wPid, title := wResp1.getString playlistTitlePath } wResp2
             (playlistIndices (wResp2.getInt totalResultsPath)))
    ∧ (specAcceptedSongs wConf wKey wFetch wUser
        { id := wPid, title := wResp1.getString playlistTitlePath } wResp2
        (playlistIndices (wResp2.getInt totalResultsPath))).length = 2 := by
  refine ⟨by decide, ?_, by decide⟩
  exact (playlist_expansion_amended wConf wKey wFetch wUser wPid [] wResp1 wResp2
    rfl rfl (by decide)).1

/-- C6 counterexample: the title resolution and the item-listing
resolution both succeed, yet the expansion returns an error rather than
the playlist, because the per-item details request of the first item
fails; this refutes the claim as stated. -/
theorem playlist_expansion_counterexample :
    cFetch (playlistInfoURL wPid wKey) = .ok wResp1
    ∧ cFetch (playlistItemsURL wPid wKey) = .ok cResp2
    ∧ (newYouTubePlaylist wConf wKey cFetch wUser wPid []).1
        = .err ("Invalid YouTube ID supplied.".toList) := by
  exact ⟨rfl, rfl, by decide⟩

/-- C9 (amended): a song registered by a single-song submission has its
filename field equal to its external id followed by `.m4a`; a song
registered during a playlist expansion has an empty filename field,
because the composite literal of lines 292-301 omits the field and Go
fills in the zero value. -/
theorem filename_amended :
    (∀ (conf : GeneralConf) (key : GoStr) (fetch : GoStr → Except GoStr ApiResponse)
      (user id : GoStr) (playlistArg : Option YouTubePlaylistM) (queue : List YouTubeSongM),
      ∀ s2 ∈ (newYouTubeSong conf key fetch user id playlistArg queue).2,
        s2 ∈ queue ∨ s2.filename = s2.id ++ ".m4a".toList)
    ∧ (∀ (conf : GeneralConf) (key : GoStr) (fetch : GoStr → Except GoStr ApiResponse)
      (user id : GoStr) (queue : List YouTubeSongM),
      ∀ s2 ∈ (newYouTubePlaylist conf key fetch user id queue).2,
        s2 ∈ queue ∨ s2.filename = []) := by
  constructor
  · intro conf key fetch user id pa queue s2 hs2
    simp only [newYouTubeSong] at hs2
    cases hf : fetch (videoInfoURL id key) with
    | error e =>
      simp only [hf] at hs2
      exact Or.inl hs2
    | ok resp =>
      simp only [hf] at hs2
      cases hp : parseDurationChars (resp.getString videoDurationPath) with
      | panicked =>
        simp only [hp] at hs2
        exact Or.inl hs2
      | parsed minutes seconds =>
        simp only [hp] at hs2
        by_cases hacc : conf.MaxSongDuration = 0
            ∨ goTotalSeconds minutes seconds ≤ conf.MaxSongDuration
        · rw [if_pos hacc] at hs2
          rcases List.mem_append.mp hs2 with h | h
          · exact Or.inl h
          · right
            rw [List.mem_singleton] at h
            subst h
            rfl
        · rw [if_neg hacc] at hs2
          exact Or.inl hs2
  · intro conf key fetch user id queue s2 hs2
    simp only [newYouTubePlaylist] at hs2
    cases hf1 : fetch (playlistInfoURL id key) with
    | error e =>
      simp only [hf1] at hs2
      exact Or.inl hs2
    | ok resp1 =>
      simp only [hf1] at hs2
      cases hf2 : fetch (playlistItemsURL id key) with
      | error e =>
        simp only [hf2] at hs2
        exact Or.inl hs2
      | ok resp2 =>
        simp only [hf2] at hs2
        obtain ⟨added, he, hprops⟩ := playlistLoop_added conf key fetch user
          { id := id, title := resp1.getString playlistTitlePath }
          (playlistIndices (resp2.getInt totalResultsPath)) resp2 queue
        rw [he] at hs2
        rcases List.mem_append.mp hs2 with h | h
        · exact Or.inl h
        · exact Or.inr (hprops s2 h).2.1

/-- C9 counterexample: the concrete three-item expansion registers two
songs whose filename fields are both empty, with external ids `a` and
`c`; the empty string is not the id followed by `.m4a`, so the claim as
stated is false for playlist-registered items. -/
theorem filename_counterexample :
    ((newYouTubePlaylist wConf wKey wFetch wUser wPid []).2.map (fun s2 => s2.filename))
        = [[], []]
    ∧ ((newYouTubePlaylist wConf wKey wFetch wUser wPid []).2.map (fun s2 => s2.id))
        = ["a".toList, "c".toList]
    ∧ ([] : GoStr) ≠ "a".toList ++ ".m4a".toList := by
  exact ⟨by decide, by decide, by decide⟩

/-- C9 witness: the song registered by a concrete single-song submission
carries filename `v.m4a` for external id `v`. -/
theorem filename_amended_witness :
    mkQueuedSong wUser (sResp300.getString songTitlePath) ("v".toList)
        ("v".toList ++ ".m4a".toList) (sResp300.getString songThumbPath) 5 0 none
      ∈ (newYouTubeSong wConf wKey sFetch300 wUser ("v".toList) none []).2
    ∧ (mkQueuedSong wUser (sResp300.getString songTitlePath) ("v".toList)
          ("v".toList ++ ".m4a".toList) (sResp300.getString songThumbPath) 5 0 none
        ∈ ([] : List YouTubeSongM)
      ∨ (mkQueuedSong wUser (sResp300.getString songTitlePath) ("v".toList)
          ("v".toList ++ ".m4a".toList) (sResp300.getString songThumbPath) 5 0 none).filename
        = (mkQueuedSong wUser (sResp300.getString songTitlePath) ("v".toList)
            ("v".toList ++ ".m4a".toList) (sResp300.getString songThumbPath) 5 0 none).id
          ++ ".m4a".toList) := by
  have hmem : mkQueuedSong wUser (sResp300.getString songTitlePath) ("v".toList)
      ("v".toList ++ ".m4a".toList) (sResp300.getString songThumbPath) 5 0 none
      ∈ (newYouTubeSong wConf wKey sFetch300 wUser ("v".toList) none []).2 := by
    decide
  exact ⟨hmem, filename_amended.1 wConf wKey sFetch300 wUser ("v".toList) none [] _ hmem⟩

/-- C10: the `Playlist()` accessor faults on a nil back-reference; every
song constructed by `NewYouTubeSong` (every single-song submission, the
`playlist` argument notwithstanding) carries a nil back-reference, so the
accessor faults on it; a song registered during a playlist expansion
carries a non-nil back-reference, on which the accessor is safe. -/
theorem playlist_accessor_nil_fault :
    (∀ s : YouTubeSongM, s.playlist = none → youTubeSongPlaylistAccess s = .panicked)
    ∧ (∀ (conf : GeneralConf) (key : GoStr) (fetch : GoStr → Except GoStr ApiResponse)
        (user id : GoStr) (playlistArg : Option YouTubePlaylistM)
        (queue q2 : List YouTubeSongM) (song : YouTubeSongM),
        newYouTubeSong conf key fetch user id playlistArg queue = (.ok song, q2) →
        song.playlist = none ∧ youTubeSongPlaylistAccess song = .panicked)
    ∧ (∀ (conf : GeneralConf) (key : GoStr) (fetch : GoStr → Except GoStr ApiResponse)
        (user id : GoStr) (queue : List YouTubeSongM),
        ∀ s2 ∈ (newYouTubePlaylist conf key fetch user id queue).2,
          s2 ∈ queue ∨ youTubeSongPlaylistAccess s2 ≠ .panicked) := by
  have hacc0 : ∀ s : YouTubeSongM, s.playlist = none →
      youTubeSongPlaylistAccess s = .panicked := by
    intro s h
    unfold youTubeSongPlaylistAccess
    rw [h]
  refine ⟨hacc0, ?_, ?_⟩
  · intro conf key fetch user id pa queue q2 song hok
    simp only [newYouTubeSong] at hok
    cases hf : fetch (videoInfoURL id key) with
    | error e =>
      simp only [hf] at hok
      simp at hok
    | ok resp =>
      simp only [hf] at hok
      cases hp : parseDurationChars (resp.getString videoDurationPath) with
      | panicked =>
        simp only [hp] at hok
        simp at hok
      | parsed minutes seconds =>
        simp only [hp] at hok
        by_cases haccept : conf.MaxSongDuration = 0
            ∨ goTotalSeconds minutes seconds ≤ conf.MaxSongDuration
        · rw [if_pos haccept] at hok
          injection hok with ha hb
          injection ha with hc
          constructor
          · rw [← hc]
            rfl
          · rw [← hc]
            exact hacc0 _ rfl
        · rw [if_neg haccept] at hok
          simp at hok
  · intro conf key fetch user id queue s2 hs2
    simp only [newYouTubePlaylist] at hs2
    cases hf1 : fetch (playlistInfoURL id key) with
    | error e =>
      simp only [hf1] at hs2
      exact Or.inl hs2
    | ok resp1 =>
      simp only [hf1] at hs2
      cases hf2 : fetch (playlistItemsURL id key) with
      | error e =>
        simp only [hf2] at hs2
        exact Or.inl hs2
      | ok resp2 =>
        simp only [hf2] at hs2
        obtain ⟨added, he, hprops⟩ := playlistLoop_added conf key fetch user
          { id := id, title := resp1.getString playlistTitlePath }
          (playlistIndices (resp2.getInt totalResultsPath)) resp2 queue
        rw [he] at hs2
        rcases List.mem_append.mp hs2 with h | h
        · exact Or.inl h
        · right
          have hpl := (hprops s2 h).1
          unfold youTubeSongPlaylistAccess
          rw [hpl]
          simp

/-- C10 witness: the song created by a concrete single-song submission
has a nil back-reference and its accessor faults. -/
theorem playlist_accessor_nil_fault_witness :
    (mkQueuedSong wUser (sResp300.getString songTitlePath) ("v".toList)
        ("v".toList ++ ".m4a".toList) (sResp300.getString songThumbPath) 5 0 none).playlist
      = none
    ∧ youTubeSongPlaylistAccess (mkQueuedSong wUser (sResp300.getString songTitlePath)
        ("v".toList) ("v".toList ++ ".m4a".toList) (sResp300.getString songThumbPath)
        5 0 none) = .panicked := by
  exact playlist_accessor_nil_fault.2.1 wConf wKey sFetch300 wUser ("v".toList) none [] _ _ rfl
